import Mathlib

/-!
Shallow embedding of the Vairified SDK (TypeScript client library for the
Vairified Partner API) and verification of its specification claims.

Source files embedded: `src/errors.ts` (error taxonomy), the client
(`Vairified.handleError`, `Vairified.search`, `Vairified.startOAuth`),
`src/models.ts` (RatingSplit, RatingSplits, Player, Member, Match,
MatchResult, RatingUpdate, SearchResults) and `src/oauth.ts` (SCOPES).

Modeling conventions:
- JavaScript numbers used for ratings are modeled as `ℚ`; integer-valued
  quantities (HTTP status, pagination counters, game scores) as `ℕ`/`ℤ`.
- `Number.parseInt(s, 10)` / `Number.parseFloat(s)` can produce `NaN`;
  the possible results are modeled by `Option Int` / `Option ℚ` at the
  parser (`none` = NaN), and a distinguished `JsNum.nan` value where the
  code stores the raw parse result (the `retryAfter` field).
- Optional TS fields become `Option` fields; `a ?? b` becomes `Option.getD`.
- `throw` is modeled by `Except`: the thrown value is a `ThrownError`,
  either a member of the typed HTTP error taxonomy (`VairifiedErr`) or a
  plain local `Error` carrying only a message.
- Methods that would issue an HTTP request are modeled up to the point of
  the request: they return `Except ThrownError R` where `R` describes the
  request that would be issued, so `Except.error` means the method throws
  before any network call.
- The opaque back-reference `_client` is modeled as `Option Unit`
  (only its presence matters to the embedded code paths).
- The raw response body passed through to error constructors for
  diagnostics is not modeled (no claim depends on it); the `message`
  selection (`body.message || response.statusText`) is.
-/

namespace Vairified

/-- A JavaScript number that may be NaN (result of parsing a string). -/
inductive JsNum where
  | nan : JsNum
  | num (n : Int) : JsNum
deriving DecidableEq

/-- Numeric value of a list of decimal digit characters. -/
def digitsVal (ds : List Char) : Nat :=
  ds.foldl (fun a c => a * 10 + (c.toNat - 48)) 0

/-- Embeds `Number.parseInt(s, 10)`: skip leading whitespace, optional sign, then a
maximal prefix of decimal digits; `none` models NaN (no digits found). -/
def parseIntJs (s : String) : Option Int :=
  let cs := s.data.dropWhile (fun c => c = ' ' ∨ c = '\t' ∨ c = '\n' ∨ c = '\r')
  let signed : Int × List Char :=
    match cs with
    | '-' :: r => (-1, r)
    | '+' :: r => (1, r)
    | r => (1, r)
  let ds := signed.2.takeWhile Char.isDigit
  if ds.isEmpty then none
  else some (signed.1 * (digitsVal ds : Int))

/-- Embeds `Number.parseFloat(s)`: optional sign, decimal digits, optional fractional
part; `none` models NaN (no digits at all). -/
def parseFloatJs (s : String) : Option ℚ :=
  let cs := s.data.dropWhile (fun c => c = ' ' ∨ c = '\t' ∨ c = '\n' ∨ c = '\r')
  let signed : ℚ × List Char :=
    match cs with
    | '-' :: r => (-1, r)
    | '+' :: r => (1, r)
    | r => (1, r)
  let intDs := signed.2.takeWhile Char.isDigit
  let rest := signed.2.drop intDs.length
  let fracDs : List Char :=
    match rest with
    | '.' :: r => r.takeWhile Char.isDigit
    | _ => []
  if intDs.isEmpty ∧ fracDs.isEmpty then none
  else some (signed.1 * ((digitsVal intDs : ℚ) + (digitsVal fracDs : ℚ) / (10 ^ fracDs.length : ℚ)))

/-- The typed error taxonomy of `src/errors.ts`: `VairifiedError` and its
subclasses.  Each constructor records the fields relevant to discrimination:
the message, and for `base` the attached status code, for `rateLimit` the
`retryAfter` field (`number | undefined`, hence `Option JsNum`), for `oauth`
the provider error code.  The fixed status codes (429/401/404/400) set by
the subclass constructors are implied by the constructor. -/
inductive VairifiedErr where
  | base (message : String) (statusCode : Option Nat) : VairifiedErr
  | rateLimit (message : String) (retryAfter : Option JsNum) : VairifiedErr
  | authentication (message : String) : VairifiedErr
  | notFound (message : String) : VairifiedErr
  | validation (message : String) : VairifiedErr
  | oauth (message : String) (errorCode : Option String) : VairifiedErr
deriving DecidableEq

/-- A value thrown by the SDK: either a member of the HTTP error taxonomy
(`VairifiedError` or a subclass) or a plain `new Error(message)` raised as a
local precondition failure. -/
inductive ThrownError where
  | vairified (e : VairifiedErr) : ThrownError
  | plain (message : String) : ThrownError
deriving DecidableEq

/-- Whether a thrown value is an instance of the HTTP error taxonomy
(`e instanceof VairifiedError`). -/
def ThrownError.isHttpTaxonomy : ThrownError → Bool
  | .vairified _ => true
  | .plain _ => false

/-- The data of a non-2xx HTTP response consumed by `handleError`:
status, status text, the `Retry-After` header (`headers.get` returns
string-or-null), and the `message` field of the JSON body when the body
parsed as JSON and carried one (`none` models both parse failure and a
missing field, which land in the same `statusText` fallback). -/
structure HttpResponse where
  status : Nat
  statusText : String
  retryAfterHeader : Option String
  jsonMessage : Option String
deriving DecidableEq

/-- Embeds `body.message || response.statusText` with the catch-fallback to
`statusText`: an empty string message is falsy and also falls back. -/
def responseMessage (r : HttpResponse) : String :=
  match r.jsonMessage with
  | some s => if s = "" then r.statusText else s
  | none => r.statusText

/-- The value stored in `RateLimitError.retryAfter`:
`retryAfter ? Number.parseInt(retryAfter, 10) : undefined`.
A `null` (missing) or empty-string header is falsy, giving `undefined`;
otherwise the raw `parseInt` result is stored, which is NaN when the
header has no leading integer. -/
def retryAfterValue (header : Option String) : Option JsNum :=
  match header with
  | none => none
  | some s =>
      if s = "" then none
      else some ((parseIntJs s).elim JsNum.nan JsNum.num)

/-- Embeds `Vairified.handleError`: maps a non-2xx response to a typed error.
Order of tests follows the source: 401, 404, 429, 400, then the base
error with the status attached. -/
def handleError (r : HttpResponse) : VairifiedErr :=
  let message := responseMessage r
  if r.status = 401 then .authentication message
  else if r.status = 404 then .notFound message
  else if r.status = 429 then .rateLimit message (retryAfterValue r.retryAfterHeader)
  else if r.status = 400 then .validation message
  else .base message (some r.status)

/-- The raw value of one `ratingSplits` entry on the wire: either a bare
number or an object `{rating, abbr, date_played?}` whose rating may be a
numeric string (`RatingSplitData` in `src/types.ts`). -/
inductive SplitEntry where
  | num (q : ℚ) : SplitEntry
  | obj (rating : String ⊕ ℚ) (abbr : String) (datePlayed : Option String) : SplitEntry
deriving DecidableEq

/-- Embeds `RatingSplitsData`: a JSON object mapping category keys to entries.
JSON object keys are unique; modeled as an association list in key order. -/
def RatingSplitsData := List (String × SplitEntry)

/-- The `RatingSplit` model class. -/
structure RatingSplit where
  rating : ℚ
  abbr : String
  datePlayed : Option String := none
deriving DecidableEq

/-- Embeds the `RatingSplit` constructor: a bare number gives a split with empty abbr;
an object coerces a string rating with `Number.parseFloat(v) || 0`
(NaN, and 0 itself, both land on 0). -/
def RatingSplit.ofData : SplitEntry → RatingSplit
  | .num q => { rating := q, abbr := "" }
  | .obj rv abbr dp =>
      { rating :=
          match rv with
          | .inl s => match parseFloatJs s with
            | some q => if q = 0 then 0 else q
            | none => 0
          | .inr q => q,
        abbr := abbr, datePlayed := dp }

/-- Embeds `Map.set` semantics: replace in place when the key exists, else append. -/
def mapSet (m : List (String × RatingSplit)) (k : String) (v : RatingSplit) :
    List (String × RatingSplit) :=
  if m.any (fun p => p.1 = k) then
    m.map (fun p => if p.1 = k then (k, v) else p)
  else m ++ [(k, v)]

/-- Embeds `Map.get` semantics: first (hence only) binding of the key. -/
def mapGet (m : List (String × RatingSplit)) (k : String) : Option RatingSplit :=
  (m.find? (fun p => p.1 = k)).map (fun p => p.2)

/-- The `RatingSplits` model class: a `Map` of category names to splits,
in insertion order. -/
structure RatingSplits where
  splits : List (String × RatingSplit)
deriving DecidableEq

/-- Embeds the `RatingSplits` constructor: iterate `Object.entries(data)` and `set`
each entry (no data: empty map). -/
def RatingSplits.ofData (data : Option RatingSplitsData) : RatingSplits :=
  { splits :=
      match data with
      | none => []
      | some d => d.foldl (fun m kv => mapSet m kv.1 (RatingSplit.ofData kv.2)) [] }

/-- Embeds `RatingSplits.get(category)`: the rating stored under the key, if any. -/
def RatingSplits.getR (m : RatingSplits) (category : String) : Option ℚ :=
  (mapGet m.splits category).map (fun s => s.rating)

/-- Whether a category key is present in the map. -/
def RatingSplits.containsKey (m : RatingSplits) (category : String) : Bool :=
  (mapGet m.splits category).isSome

/-- Embeds `get open`: `this.get("open") ?? this.get("VO")`. -/
def RatingSplits.openR (m : RatingSplits) : Option ℚ :=
  (m.getR "open").or (m.getR "VO")

/-- Embeds `get gender`: `this.get("gender") ?? this.get("VG")`. -/
def RatingSplits.genderR (m : RatingSplits) : Option ℚ :=
  (m.getR "gender").or (m.getR "VG")

/-- Embeds `get mixed`: `this.get("mixed") ?? this.get("VM")`. -/
def RatingSplits.mixedR (m : RatingSplits) : Option ℚ :=
  (m.getR "mixed").or (m.getR "VM")

/-- Embeds `get recreational`: `this.get("recreational") ?? this.get("R")`. -/
def RatingSplits.recreationalR (m : RatingSplits) : Option ℚ :=
  (m.getR "recreational").or (m.getR "R")

/-- Embeds `get singles`: `this.get("singles") ?? this.get("S")`. -/
def RatingSplits.singlesR (m : RatingSplits) : Option ℚ :=
  (m.getR "singles").or (m.getR "S")

/-- The rating values of the map, in insertion order
(`Array.from(this.splits.values()).map(s => s.rating)`). -/
def RatingSplits.ratingValues (m : RatingSplits) : List ℚ :=
  m.splits.map (fun p => p.2.rating)

/-- Embeds `get best`: filter the values to those `> 0`; `Math.max(...ratings)` of a
nonempty list, else `undefined`. -/
def RatingSplits.bestR (m : RatingSplits) : Option ℚ :=
  match m.ratingValues.filter (fun r => 0 < r) with
  | [] => none
  | r :: rs => some (rs.foldl max r)

/-- Embeds `PlayerSearchData` (`src/types.ts`): the search-endpoint player shape. -/
structure PlayerSearchData where
  id : String
  displayName : String
  city : Option String := none
  state : Option String := none
  country : Option String := none
  rating : Option ℚ := none
  isVairified : Option Bool := none
  isConnected : Option Bool := none
deriving DecidableEq

/-- Embeds `MemberData` (`src/types.ts`): the member-endpoint player shape. -/
structure MemberData where
  id : String
  firstName : Option String := none
  lastName : Option String := none
  email : Option String := none
  rating : Option ℚ := none
  isVairified : Option Bool := none
  ratingSplits : Option RatingSplitsData := none
  city : Option String := none
  state : Option String := none
  country : Option String := none
  grantedScopes : Option (List String) := none

/-- Embeds `PlayerData = MemberData | PlayerSearchData`; the source discriminates by
the presence of `displayName` (`isSearchData`), which this tag reflects. -/
inductive PlayerData where
  | search (d : PlayerSearchData) : PlayerData
  | member (d : MemberData) : PlayerData

/-- The `Player` model class. -/
structure Player where
  id : String
  displayName : Option String := none
  firstName : Option String := none
  lastName : Option String := none
  rating : ℚ
  isVairified : Bool
  isConnected : Bool
  ratingSplits : RatingSplits
  city : Option String := none
  state : Option String := none
  country : Option String := none
  client : Option Unit := none

/-- Embeds the `Player` constructor (`src/models.ts` lines 161-185): search-shaped data
defaults `rating` to 0 and both flags to false and leaves the splits empty;
member-shaped data defaults `rating` to 0 and `isVairified` to false, sets
`isConnected := true` unconditionally, and defaults first/last name to the empty string. -/
def Player.ofData (d : PlayerData) (client : Option Unit) : Player :=
  match d with
  | .search s =>
      { id := s.id, displayName := some s.displayName,
        rating := s.rating.getD 0,
        isVairified := s.isVairified.getD false,
        isConnected := s.isConnected.getD false,
        ratingSplits := RatingSplits.ofData none,
        city := s.city, state := s.state, country := s.country,
        client := client }
  | .member m =>
      { id := m.id,
        firstName := some (m.firstName.getD ""), lastName := some (m.lastName.getD ""),
        rating := m.rating.getD 0,
        isVairified := m.isVairified.getD false,
        isConnected := true,
        ratingSplits := RatingSplits.ofData m.ratingSplits,
        city := m.city, state := m.state, country := m.country,
        client := client }

/-- The `Member` model class (extends `Player`). -/
structure Member where
  toPlayer : Player
  email : Option String := none
  grantedScopes : List String := []

/-- Embeds the `Member` constructor: `super(data, client)` then email and
`grantedScopes ?? []`. -/
def Member.ofData (d : MemberData) (client : Option Unit) : Member :=
  { toPlayer := Player.ofData (.member d) client,
    email := d.email,
    grantedScopes := d.grantedScopes.getD [] }

/-- Embeds `Member.refresh` up to its network call: without a client back-reference
it throws a plain local `Error`; with one it issues `getMember(this.id)`,
modeled by returning the id to fetch. -/
def Member.refreshRequest (m : Member) : Except ThrownError String :=
  match m.toPlayer.client with
  | none => .error (.plain "Member not connected to client")
  | some _ => .ok m.toPlayer.id

/-- One team on the wire (the teamA / teamB shape of `MatchApiData`): a required first player,
an optional second player and up to five optional game scores. -/
structure TeamApiData where
  player1 : String
  player2 : Option String := none
  game1 : Option Int := none
  game2 : Option Int := none
  game3 : Option Int := none
  game4 : Option Int := none
  game5 : Option Int := none
deriving DecidableEq

/-- Embeds `teamX[gameKeys[i]] = v` for a 0-based game index `i`; out-of-range
indices leave the team unchanged (the `if (score && key)` guard in the source). -/
def setGame (t : TeamApiData) (i : Nat) (v : Int) : TeamApiData :=
  match i with
  | 0 => { t with game1 := some v }
  | 1 => { t with game2 := some v }
  | 2 => { t with game3 := some v }
  | 3 => { t with game4 := some v }
  | 4 => { t with game5 := some v }
  | _ => t

/-- Read back the game slot for a 0-based index. -/
def gameAt (t : TeamApiData) (i : Nat) : Option Int :=
  match i with
  | 0 => t.game1
  | 1 => t.game2
  | 2 => t.game3
  | 3 => t.game4
  | 4 => t.game5
  | _ => none

/-- Embeds `MatchApiData` (`src/types.ts`): the wire format of one match. -/
structure MatchApiData where
  identifier : String
  bracket : String
  event : String
  format : String
  matchDate : String
  matchSource : String
  matchType : String
  location : Option String := none
  teamA : TeamApiData
  teamB : TeamApiData
deriving DecidableEq

/-- The `Match` model class; the date is kept as its ISO-8601 rendering. -/
structure Match where
  event : String
  bracket : String
  date : String
  team1 : List String
  team2 : List String
  scores : List (Int × Int)
  matchType : String := "SIDEOUT"
  source : String := "PARTNER"
  location : Option String := none
  identifier : String

/-- Embeds `get format`: `SINGLES` iff team1 has exactly one player, else `DOUBLES`. -/
def Match.format (m : Match) : String :=
  if m.team1.length = 1 then "SINGLES" else "DOUBLES"

/-- One iteration of the game-score loop body of `Match.toJSON`:
read `scores[i]` and, when present, write its two components into the two
teams at game slot `i`. -/
def gameStep (scores : List (Int × Int)) (ab : TeamApiData × TeamApiData)
    (i : Nat) : TeamApiData × TeamApiData :=
  match scores.get? i with
  | some sc => (setGame ab.1 i sc.1, setGame ab.2 i sc.2)
  | none => ab

/-- The game-score loop run for indices up to (excluding) `m`. -/
def addGamesUpTo (scores : List (Int × Int)) (m : Nat)
    (p : TeamApiData × TeamApiData) : TeamApiData × TeamApiData :=
  (List.range m).foldl (gameStep scores) p

/-- The game-score loop of `Match.toJSON`:
`for (let i = 0; i < Math.min(scores.length, 5); i++)` setting
`teamA[gameKeys[i]] = score[0]` and `teamB[gameKeys[i]] = score[1]`. -/
def addGames (scores : List (Int × Int)) (tA tB : TeamApiData) :
    TeamApiData × TeamApiData :=
  addGamesUpTo scores (min scores.length 5) (tA, tB)

/-- Embeds `if (this.team1[1]) teamA.player2 = this.team1[1]`: a second
player is added only when the slot holds a truthy (nonempty) string. -/
def withPlayer2 (t : TeamApiData) (slot : Option String) : TeamApiData :=
  match slot with
  | some p => if p = "" then t else { t with player2 := some p }
  | none => t

/-- Embeds `Match.toJSON` (`src/models.ts` lines 337-373): throws a plain local
error when either team lacks a truthy first player (a missing or empty-string
`team1[0]`/`team2[0]` is falsy); otherwise builds `teamA`/`teamB`, adds a
truthy second player, writes the first five game scores, and returns the
wire object. -/
def Match.toJSON (m : Match) : Except ThrownError MatchApiData :=
  match m.team1.head?, m.team2.head? with
  | some a, some b =>
      if a = "" ∨ b = "" then
        .error (.plain "Match must have at least one player per team")
      else
        .ok { identifier := m.identifier, bracket := m.bracket, event := m.event,
              format := m.format, matchDate := m.date, matchSource := m.source,
              matchType := m.matchType, location := m.location,
              teamA := (addGames m.scores (withPlayer2 { player1 := a } (m.team1.get? 1))
                          (withPlayer2 { player1 := b } (m.team2.get? 1))).1,
              teamB := (addGames m.scores (withPlayer2 { player1 := a } (m.team1.get? 1))
                          (withPlayer2 { player1 := b } (m.team2.get? 1))).2 }
  | _, _ => .error (.plain "Match must have at least one player per team")

/-- Embeds `MatchResultData` (`src/types.ts`). -/
structure MatchResultData where
  success : Bool
  numMatches : Nat
  numGames : Nat
  dryRun : Option Bool := none
  message : Option String := none
  errors : Option (List String) := none

/-- The `MatchResult` model class. -/
structure MatchResult where
  success : Bool
  numMatches : Nat
  numGames : Nat
  dryRun : Bool
  message : Option String := none
  errors : List String

/-- Embeds the `MatchResult` constructor: `dryRun ?? false`, `errors ?? []`. -/
def MatchResult.ofData (d : MatchResultData) : MatchResult :=
  { success := d.success, numMatches := d.numMatches, numGames := d.numGames,
    dryRun := d.dryRun.getD false, message := d.message,
    errors := d.errors.getD [] }

/-- The `RatingUpdate` model class (fields needed by the lazy `getMember`). -/
structure RatingUpdate where
  id : String
  memberName : Option String := none
  previousRating : ℚ
  newRating : ℚ
  ratingSplits : RatingSplits
  client : Option Unit := none

/-- Embeds `RatingUpdate.getMember` up to its network call: without a client
back-reference it throws a plain local `Error`; with one it issues
`getMember(this.id)`. -/
def RatingUpdate.getMemberRequest (u : RatingUpdate) : Except ThrownError String :=
  match u.client with
  | none => .error (.plain "Update not connected to client")
  | some _ => .ok u.id

/-- Embeds `SearchFilters` (`src/types.ts`): every field optional. -/
structure SearchFilters where
  name : Option String := none
  city : Option String := none
  state : Option String := none
  country : Option String := none
  zipCode : Option String := none
  ratingMin : Option ℚ := none
  ratingMax : Option ℚ := none
  gender : Option String := none
  vairifiedOnly : Option Bool := none
  age : Option Nat := none
  ageMin : Option Nat := none
  ageMax : Option Nat := none
  sortBy : Option String := none
  sortOrder : Option String := none
  page : Option Nat := none
  limit : Option Nat := none

/-- Embeds `SearchResultsData` (`src/types.ts`): the search response envelope. -/
structure SearchResultsData where
  players : List PlayerSearchData
  total : Nat
  page : Nat
  limit : Nat

/-- The `SearchResults` model class. -/
structure SearchResults where
  players : List Player
  total : Nat
  page : Nat
  limit : Nat
  client : Option Unit := none
  filters : SearchFilters := {}

/-- Embeds the `SearchResults` constructor: wrap each raw player via the `Player`
constructor with the client back-reference, copy the pagination fields, and
stash the filters. -/
def SearchResults.ofData (d : SearchResultsData) (client : Option Unit)
    (filters : SearchFilters) : SearchResults :=
  { players := d.players.map (fun p => Player.ofData (.search p) client),
    total := d.total, page := d.page, limit := d.limit,
    client := client, filters := filters }

/-- Embeds `get hasMore`: `this.page * this.limit < this.total`. -/
def SearchResults.hasMore (r : SearchResults) : Bool :=
  decide (r.page * r.limit < r.total)

/-- Embeds `get pages`: `this.limit > 0 ? Math.ceil(this.total / this.limit) : 0`. -/
def SearchResults.pages (r : SearchResults) : ℤ :=
  if 0 < r.limit then ⌈(r.total : ℚ) / (r.limit : ℚ)⌉ else 0

/-- Embeds `SearchResults.nextPage` up to its network call: no client throws a
plain local error; no further page throws a plain local error; otherwise it
issues `search({...this._filters, page: this.page + 1})`, modeled by
returning the filters of that request. -/
def SearchResults.nextPageRequest (r : SearchResults) :
    Except ThrownError SearchFilters :=
  match r.client with
  | none => .error (.plain "Results not connected to client")
  | some _ =>
      if r.hasMore then .ok { r.filters with page := some (r.page + 1) }
      else .error (.plain "No more pages")

/-- The two shapes the search endpoint may answer with: a bare array of
players or the full envelope. -/
inductive SearchResponse where
  | arr (ps : List PlayerSearchData) : SearchResponse
  | envelope (d : SearchResultsData) : SearchResponse

/-- The normalization step of `Vairified.search` (lines 414-417): a bare
array becomes `{players: data, total: data.length, page, limit}` with the
requested `page = filters.page ?? 1` and `limit = filters.limit ?? 20`;
an envelope passes through unchanged. -/
def searchNormalize (filters : SearchFilters) (resp : SearchResponse) :
    SearchResultsData :=
  let page := filters.page.getD 1
  match resp with
  | .arr ps => { players := ps, total := ps.length, page := page,
                 limit := filters.limit.getD 20 }
  | .envelope d => d

/-- The tail of `Vairified.search`: build the `SearchResults` from the
normalized envelope, the client and the original filters. -/
def searchBuild (filters : SearchFilters) (resp : SearchResponse)
    (client : Option Unit) : SearchResults :=
  SearchResults.ofData (searchNormalize filters resp) client filters

/-- The scope registry keys of `SCOPES` (`src/oauth.ts` lines 14-21). -/
def SCOPES : List String :=
  ["profile:read", "profile:email", "rating:read", "rating:history",
   "match:submit", "webhook:subscribe"]

/-- Embeds `DEFAULT_SCOPES` (`src/oauth.ts`). -/
def DEFAULT_SCOPES : List String := ["profile:read", "rating:read"]

/-- JS `Set.add`: append unless already present (insertion order kept). -/
def setAdd (l : List String) (s : String) : List String :=
  if s ∈ l then l else l ++ [s]

/-- Embeds `new Set(scopes)` as an insertion-ordered duplicate-free list. -/
def setFromList (l : List String) : List String :=
  l.foldl setAdd []

/-- The scope list `startOAuth` actually uses:
`Array.from(new Set(scopes).add(profile-read))`. -/
def scopeListOf (scopes : List String) : List String :=
  setAdd (setFromList scopes) "profile:read"

/-- Property names inherited from `Object.prototype` in JavaScript engines
such as Node (the last four are the Annex B accessors, present in every
mainstream engine): the `in` operator walks the prototype chain, so these
names test true on any plain object literal. -/
def OBJECT_PROTOTYPE_KEYS : List String :=
  ["constructor", "hasOwnProperty", "isPrototypeOf", "propertyIsEnumerable",
   "toLocaleString", "toString", "valueOf", "__proto__",
   "__defineGetter__", "__defineSetter__", "__lookupGetter__", "__lookupSetter__"]

/-- Embeds the JS expression `scope in SCOPES`: true for the six own keys of
the registry and also for every property name the object literal inherits
from `Object.prototype`. -/
def jsInScopes (s : String) : Bool :=
  SCOPES.contains s || OBJECT_PROTOTYPE_KEYS.contains s

/-- The pre-request phase of `Vairified.startOAuth` (lines 567-582): build
the augmented scope list, then scan it in order and throw
an OAuthError with the invalid-scope code at the first scope for which the
JS test `scope in SCOPES` is false (so a scope naming an inherited
`Object.prototype` property passes); on success the HTTP request is issued
with that list, modeled by returning it. -/
def startOAuthValidate (scopes : List String) :
    Except ThrownError (List String) :=
  let scopeList := scopeListOf scopes
  match scopeList.find? (fun s => !(jsInScopes s)) with
  | some s => .error (.vairified (.oauth ("Invalid scope: " ++ s) (some "invalid_scope")))
  | none => .ok scopeList

/-- Concrete 429 response with a numeric Retry-After header. -/
def resp429numeric : HttpResponse :=
  { status := 429
    statusText := "Too Many Requests"
    retryAfterHeader := some "60"
    jsonMessage := some "Rate limit exceeded" }

/-- Concrete 429 response with a non-numeric Retry-After header. -/
def resp429alpha : HttpResponse :=
  { status := 429
    statusText := "Too Many Requests"
    retryAfterHeader := some "soon"
    jsonMessage := none }

/-- C1 counterexample: a 429 response whose Retry-After header is the
non-numeric string "soon" yields a RateLimit error whose retryAfter field
holds NaN — a defined JavaScript number, not `undefined` — refuting the
claim that a non-numeric header leaves retryAfter absent. -/
theorem handleError_429_nonNumeric_counterexample :
    handleError resp429alpha = .rateLimit "Too Many Requests" (some JsNum.nan) ∧
    some JsNum.nan ≠ (none : Option JsNum) :=
  ⟨by decide, by decide⟩

/-- C1 amended: mapping a 429 response produces a RateLimit error carrying
the value computed from the Retry-After header; that value is absent when
the header is missing or empty, equals the parsed integer when the nonempty
header parses as a decimal integer, and is NaN (defined, not absent) when a
nonempty header does not parse. -/
theorem handleError_429_rateLimit_amended (r : HttpResponse) (h : r.status = 429) :
    handleError r = .rateLimit (responseMessage r) (retryAfterValue r.retryAfterHeader) ∧
    ((r.retryAfterHeader = none ∨ r.retryAfterHeader = some "") →
      retryAfterValue r.retryAfterHeader = none) ∧
    (∀ s n, r.retryAfterHeader = some s → s ≠ "" → parseIntJs s = some n →
      retryAfterValue r.retryAfterHeader = some (JsNum.num n)) ∧
    (∀ s, r.retryAfterHeader = some s → s ≠ "" → parseIntJs s = none →
      retryAfterValue r.retryAfterHeader = some JsNum.nan) := by
  refine ⟨?_, ?_, ?_, ?_⟩
  · simp [handleError, h]
  · rintro (hh | hh) <;> simp [retryAfterValue, hh]
  · intro s n hh hs hp
    simp [retryAfterValue, hh, hs, hp]
  · intro s hh hs hp
    simp [retryAfterValue, hh, hs, hp]

/-- C1 witness: the amended theorem at the concrete 429 response whose
Retry-After header is 60. -/
theorem handleError_429_rateLimit_witness :
    resp429numeric.status = 429 ∧
    handleError resp429numeric = .rateLimit "Rate limit exceeded" (some (JsNum.num 60)) :=
  ⟨rfl, by rw [(handleError_429_rateLimit_amended resp429numeric rfl).1]; decide⟩

/-- Concrete member payload with every optional field absent. -/
def bareMemberData : MemberData := { id := "vair_mem_0" }

/-- Concrete search payload with every optional field absent. -/
def bareSearchData : PlayerSearchData := { id := "vair_mem_1", displayName := "Jo S" }

/-- Concrete match-result payload with every optional field absent. -/
def bareMatchResultData : MatchResultData :=
  { success := true, numMatches := 1, numGames := 2 }

/-- C2 counterexample: normalizing a member-shaped payload whose connection
flag is absent yields isConnected = true (the constructor sets it
unconditionally: member data implies connected), refuting the claim that a
missing connection flag becomes false for member-shaped input as well. -/
theorem player_member_isConnected_counterexample :
    ¬ (Player.ofData (.member bareMemberData) none).isConnected = false := by
  decide

/-- C2 amended: the normalizer defaults a missing rating to 0 and a missing
verification flag to false for both input shapes, defaults a missing
connection flag to false for search-shaped input, sets the connection flag
to true unconditionally for member-shaped input, and defaults missing
granted-scope and error lists to empty lists. -/
theorem normalizer_defaults_amended :
    (∀ (s : PlayerSearchData) (c : Option Unit), s.rating = none →
      (Player.ofData (.search s) c).rating = 0) ∧
    (∀ (s : PlayerSearchData) (c : Option Unit), s.isVairified = none →
      (Player.ofData (.search s) c).isVairified = false) ∧
    (∀ (s : PlayerSearchData) (c : Option Unit), s.isConnected = none →
      (Player.ofData (.search s) c).isConnected = false) ∧
    (∀ (m : MemberData) (c : Option Unit), m.rating = none →
      (Player.ofData (.member m) c).rating = 0) ∧
    (∀ (m : MemberData) (c : Option Unit), m.isVairified = none →
      (Player.ofData (.member m) c).isVairified = false) ∧
    (∀ (m : MemberData) (c : Option Unit),
      (Player.ofData (.member m) c).isConnected = true) ∧
    (∀ (m : MemberData) (c : Option Unit), m.grantedScopes = none →
      (Member.ofData m c).grantedScopes = []) ∧
    (∀ (d : MatchResultData), d.dryRun = none →
      (MatchResult.ofData d).dryRun = false) ∧
    (∀ (d : MatchResultData), d.errors = none →
      (MatchResult.ofData d).errors = []) := by
  refine ⟨?_, ?_, ?_, ?_, ?_, ?_, ?_, ?_, ?_⟩ <;> intros <;>
    simp_all [Player.ofData, Member.ofData, MatchResult.ofData]

/-- C2 witness: the amended theorem at concrete bare payloads. -/
theorem normalizer_defaults_witness :
    (Player.ofData (.search bareSearchData) none).rating = 0 ∧
    (Player.ofData (.search bareSearchData) none).isConnected = false ∧
    (Player.ofData (.member bareMemberData) none).rating = 0 ∧
    (Member.ofData bareMemberData none).grantedScopes = [] ∧
    (MatchResult.ofData bareMatchResultData).errors = [] :=
  ⟨normalizer_defaults_amended.1 bareSearchData none rfl,
   (normalizer_defaults_amended.2.2).1 bareSearchData none rfl,
   (normalizer_defaults_amended.2.2.2).1 bareMemberData none rfl,
   (normalizer_defaults_amended.2.2.2.2.2.2).1 bareMemberData none rfl,
   (normalizer_defaults_amended.2.2.2.2.2.2.2.2) bareMatchResultData rfl⟩

/-- Fallback behavior of the `a ?? b` pattern on two optional lookups. -/
theorem or_lookup_spec (o p : Option ℚ) :
    (∀ q, o = some q → o.or p = some q) ∧
    (o = none → ∀ q, p = some q → o.or p = some q) ∧
    (o = none → p = none → o.or p = none) := by
  cases o <;> cases p <;> simp

/-- C4: each canonical-name accessor returns the rating stored under the
canonical key when that key is present, otherwise the rating stored under
the corresponding legacy abbreviation (VO, VG, VM, R, S), and none when
neither key is present. -/
theorem ratingSplits_canonical_fallback (m : RatingSplits) :
    ((∀ q, m.getR "open" = some q → m.openR = some q) ∧
     (m.getR "open" = none → ∀ q, m.getR "VO" = some q → m.openR = some q) ∧
     (m.getR "open" = none → m.getR "VO" = none → m.openR = none)) ∧
    ((∀ q, m.getR "gender" = some q → m.genderR = some q) ∧
     (m.getR "gender" = none → ∀ q, m.getR "VG" = some q → m.genderR = some q) ∧
     (m.getR "gender" = none → m.getR "VG" = none → m.genderR = none)) ∧
    ((∀ q, m.getR "mixed" = some q → m.mixedR = some q) ∧
     (m.getR "mixed" = none → ∀ q, m.getR "VM" = some q → m.mixedR = some q) ∧
     (m.getR "mixed" = none → m.getR "VM" = none → m.mixedR = none)) ∧
    ((∀ q, m.getR "recreational" = some q → m.recreationalR = some q) ∧
     (m.getR "recreational" = none → ∀ q, m.getR "R" = some q → m.recreationalR = some q) ∧
     (m.getR "recreational" = none → m.getR "R" = none → m.recreationalR = none)) ∧
    ((∀ q, m.getR "singles" = some q → m.singlesR = some q) ∧
     (m.getR "singles" = none → ∀ q, m.getR "S" = some q → m.singlesR = some q) ∧
     (m.getR "singles" = none → m.getR "S" = none → m.singlesR = none)) :=
  ⟨or_lookup_spec _ _, or_lookup_spec _ _, or_lookup_spec _ _,
   or_lookup_spec _ _, or_lookup_spec _ _⟩

/-- Concrete splits keyed only by legacy abbreviation plus one canonical key. -/
def splitsEx : RatingSplits :=
  RatingSplits.ofData (some [("VG", .num 4), ("open", .num 5)])

/-- C4 witness: the fallback theorem at a concrete splits map — the canonical
key wins for open, the legacy VG key answers the gender lookup, and mixed is
absent under both keys. -/
theorem ratingSplits_canonical_fallback_witness :
    splitsEx.openR = some 5 ∧ splitsEx.genderR = some 4 ∧ splitsEx.mixedR = none :=
  ⟨(ratingSplits_canonical_fallback splitsEx).1.1 5 (by decide),
   ((ratingSplits_canonical_fallback splitsEx).2.1).2.1 (by decide) 4 (by decide),
   ((ratingSplits_canonical_fallback splitsEx).2.2.1).2.2 (by decide) (by decide)⟩

/-- The result of folding `max` over a list either is the accumulator or
occurs in the list, and it dominates the accumulator and every element. -/
theorem foldl_max_spec (l : List ℚ) (a : ℚ) :
    (l.foldl max a = a ∨ l.foldl max a ∈ l) ∧
    a ≤ l.foldl max a ∧
    ∀ x ∈ l, x ≤ l.foldl max a := by
  induction l generalizing a with
  | nil => simp
  | cons b t ih =>
    simp only [List.foldl_cons]
    refine ⟨?_, ?_, ?_⟩
    · rcases (ih (max a b)).1 with h | h
      · rw [h]
        rcases max_choice a b with hm | hm
        · exact Or.inl hm
        · exact Or.inr (by rw [hm]; exact List.mem_cons_self b t)
      · exact Or.inr (List.mem_cons_of_mem b h)
    · exact le_trans (le_max_left a b) (ih (max a b)).2.1
    · intro x hx
      rcases List.mem_cons.mp hx with rfl | hx
      · exact le_trans (le_max_right a x) (ih (max a x)).2.1
      · exact (ih (max a b)).2.2 x hx

/-- C5: best is none exactly when no split rating is strictly positive, and
when it is some value, that value is a strictly positive rating of the map
that dominates every strictly positive rating; on the concrete splits
VG 4.25 and VM 4.1 it is 4.25, and on the empty map it is none. -/
theorem ratingSplits_best_max (m : RatingSplits) :
    (m.bestR = none ↔ ∀ r ∈ m.ratingValues, ¬ 0 < r) ∧
    (∀ q, m.bestR = some q →
      q ∈ m.ratingValues ∧ 0 < q ∧ ∀ r ∈ m.ratingValues, 0 < r → r ≤ q) ∧
    RatingSplits.bestR (RatingSplits.ofData
      (some [("VG", .num (17/4)), ("VM", .num (41/10))])) = some (17/4) ∧
    RatingSplits.bestR (RatingSplits.ofData none) = none := by
  refine ⟨?_, ?_, ?_, ?_⟩
  · rcases hfl : m.ratingValues.filter (fun r => 0 < r) with _ | ⟨a, as⟩ <;>
      simp only [RatingSplits.bestR, hfl]
    · simp only [true_iff]
      intro r hr hpos
      have hmem : r ∈ m.ratingValues.filter (fun x => 0 < x) :=
        List.mem_filter.mpr ⟨hr, by simpa using hpos⟩
      rw [hfl] at hmem
      cases hmem
    · constructor
      · intro h
        cases h
      · intro h
        exfalso
        have hmem : a ∈ m.ratingValues.filter (fun x => 0 < x) := by
          rw [hfl]
          exact List.mem_cons_self a as
        have hpos : (0:ℚ) < a := by simpa using List.of_mem_filter hmem
        exact h a (List.mem_of_mem_filter hmem) hpos
  · intro q hq
    rcases hfl : m.ratingValues.filter (fun r => 0 < r) with _ | ⟨a, as⟩ <;>
      simp only [RatingSplits.bestR, hfl] at hq
    · cases hq
    · injection hq with hq
      subst hq
      obtain ⟨h1, h2, h3⟩ := foldl_max_spec as a
      have hqfil : as.foldl max a ∈ m.ratingValues.filter (fun r => 0 < r) := by
        rw [hfl]
        rcases h1 with h | h
        · rw [h]
          exact List.mem_cons_self a as
        · exact List.mem_cons_of_mem a h
      refine ⟨List.mem_of_mem_filter hqfil, ?_, ?_⟩
      · simpa using List.of_mem_filter hqfil
      · intro r hr hrpos
        have hmem : r ∈ m.ratingValues.filter (fun x => 0 < x) :=
          List.mem_filter.mpr ⟨hr, by simpa using hrpos⟩
        rw [hfl] at hmem
        rcases List.mem_cons.mp hmem with rfl | hmem
        · exact h2
        · exact h3 r hmem
  · simp [RatingSplits.bestR, RatingSplits.ofData, RatingSplits.ratingValues,
      mapSet, RatingSplit.ofData, List.foldl, List.filter]
    norm_num [max_def]
  · simp [RatingSplits.bestR, RatingSplits.ofData, RatingSplits.ratingValues]

/-- C5 witness: the characterization applied at the concrete splits map used
for C4, whose strictly positive ratings are 4 and 5. -/
theorem ratingSplits_best_max_witness :
    splitsEx.bestR = some 5 ∧
    (5:ℚ) ∈ splitsEx.ratingValues ∧ (0:ℚ) < 5 ∧
    ∀ r ∈ splitsEx.ratingValues, 0 < r → r ≤ 5 := by
  have h := (ratingSplits_best_max splitsEx).2.1 5 (by decide)
  exact ⟨by decide, h.1, h.2.1, h.2.2⟩

/-- Ceiling of a rational quotient of naturals, expressed with natural
division: the `Math.ceil(total / limit)` value. -/
theorem ceil_natCast_div (t l : Nat) (hl : 0 < l) :
    ⌈(t : ℚ) / (l : ℚ)⌉ = (((t + l - 1) / l : ℕ) : ℤ) := by
  have hl' : (0:ℚ) < (l:ℚ) := by exact_mod_cast hl
  set q := (t + l - 1) / l with hq
  have hdm : l * q + (t + l - 1) % l = t + l - 1 := Nat.div_add_mod (t + l - 1) l
  have hmod : (t + l - 1) % l < l := Nat.mod_lt _ hl
  have hA : t ≤ l * q ∧ l * q ≤ t + l - 1 := by
    set r := (t + l - 1) % l with hr
    set p := l * q with hp
    omega
  have hA1 : (t:ℚ) ≤ (l:ℚ) * (q:ℚ) := by exact_mod_cast hA.1
  have hA2 : (l:ℚ) * (q:ℚ) ≤ (t:ℚ) + (l:ℚ) - 1 := by
    have h1t : 1 ≤ t + l := by omega
    have hcast : ((t + l - 1 : ℕ) : ℚ) = (t:ℚ) + (l:ℚ) - 1 := by
      push_cast [Nat.cast_sub h1t]
      ring
    calc (l:ℚ) * (q:ℚ) = ((l * q : ℕ) : ℚ) := by push_cast; ring
      _ ≤ ((t + l - 1 : ℕ) : ℚ) := by exact_mod_cast hA.2
      _ = _ := hcast
  apply le_antisymm
  · rw [Int.ceil_le, div_le_iff₀ hl']
    push_cast
    linarith
  · have hlt : (q:ℤ) - 1 < ⌈(t : ℚ) / (l : ℚ)⌉ := by
      rw [Int.lt_ceil, lt_div_iff₀ hl']
      push_cast
      have hl1 : (1:ℚ) ≤ (l:ℚ) := by exact_mod_cast hl
      nlinarith
    omega

/-- Concrete search results for the spec example: total 45, limit 20, page 2. -/
def resultsPage2 : SearchResults := { players := [], total := 45, page := 2, limit := 20 }

/-- Concrete search results for the spec example at page 3. -/
def resultsPage3 : SearchResults := { players := [], total := 45, page := 3, limit := 20 }

/-- C6: hasMore holds exactly when page times limit is below total; pages is
the ceiling of total over limit when the limit is positive and 0 when the
limit is 0; for total 45 and limit 20 there are 3 pages, with more results
at page 2 and none after page 3. -/
theorem searchResults_pagination (r : SearchResults) :
    (r.hasMore = true ↔ r.page * r.limit < r.total) ∧
    (0 < r.limit → r.pages = (((r.total + r.limit - 1) / r.limit : ℕ) : ℤ)) ∧
    (r.limit = 0 → r.pages = 0) ∧
    resultsPage2.pages = 3 ∧
    resultsPage2.hasMore = true ∧
    resultsPage3.hasMore = false := by
  have hpages : ∀ (x : SearchResults), 0 < x.limit →
      x.pages = (((x.total + x.limit - 1) / x.limit : ℕ) : ℤ) := by
    intro x hx
    unfold SearchResults.pages
    rw [if_pos hx]
    exact ceil_natCast_div x.total x.limit hx
  refine ⟨?_, hpages r, ?_, ?_, ?_, ?_⟩
  · simp [SearchResults.hasMore]
  · intro h
    simp [SearchResults.pages, h]
  · rw [hpages resultsPage2 (by decide)]
    decide
  · decide
  · decide

/-- C6 witness: the pagination theorem at the concrete page-2 results. -/
theorem searchResults_pagination_witness :
    0 < resultsPage2.limit ∧
    resultsPage2.pages =
      (((resultsPage2.total + resultsPage2.limit - 1) / resultsPage2.limit : ℕ) : ℤ) ∧
    resultsPage2.hasMore = true :=
  ⟨by decide, (searchResults_pagination resultsPage2).2.1 (by decide),
   (searchResults_pagination resultsPage2).1.mpr (by decide)⟩

/-- Game slots at index 5 or beyond do not exist. -/
theorem gameAt_ge5 (t : TeamApiData) (j : Nat) (h : 5 ≤ j) : gameAt t j = none := by
  rcases j with _ | _ | _ | _ | _ | j
  · omega
  · omega
  · omega
  · omega
  · omega
  · rfl

/-- Writing a game slot at index 5 or beyond is a no-op. -/
theorem setGame_ge5 (t : TeamApiData) (i : Nat) (v : Int) (h : 5 ≤ i) :
    setGame t i v = t := by
  rcases i with _ | _ | _ | _ | _ | i
  · omega
  · omega
  · omega
  · omega
  · omega
  · rfl

/-- Reading back the slot just written. -/
theorem gameAt_setGame_self (t : TeamApiData) (i : Nat) (v : Int) (h : i < 5) :
    gameAt (setGame t i v) i = some v := by
  interval_cases i <;> rfl

/-- Writing one slot leaves every other slot unchanged. -/
theorem gameAt_setGame_ne (t : TeamApiData) (i j : Nat) (v : Int) (h : i ≠ j) :
    gameAt (setGame t i v) j = gameAt t j := by
  rcases Nat.lt_or_ge i 5 with hi | hi
  · rcases Nat.lt_or_ge j 5 with hj | hj
    · interval_cases i <;> interval_cases j <;> simp_all [setGame, gameAt]
    · rw [gameAt_ge5 _ j hj, gameAt_ge5 _ j hj]
  · rw [setGame_ge5 _ _ _ hi]

/-- Writing a game slot does not touch the first player. -/
theorem setGame_player1 (t : TeamApiData) (i : Nat) (v : Int) :
    (setGame t i v).player1 = t.player1 := by
  rcases i with _ | _ | _ | _ | _ | i <;> rfl

/-- Writing a game slot does not touch the second player. -/
theorem setGame_player2 (t : TeamApiData) (i : Nat) (v : Int) :
    (setGame t i v).player2 = t.player2 := by
  rcases i with _ | _ | _ | _ | _ | i <;> rfl

/-- Unrolling the loop by its last iteration. -/
theorem addGamesUpTo_succ (scores : List (Int × Int)) (m : Nat)
    (p : TeamApiData × TeamApiData) :
    addGamesUpTo scores (m + 1) p = gameStep scores (addGamesUpTo scores m p) m := by
  unfold addGamesUpTo
  rw [List.range_succ, List.foldl_append, List.foldl_cons, List.foldl_nil]

/-- Loop characterization: after running the loop for indices below `m`
(with `m` within both the score list and the five slots), slot `j` holds the
component of score `j` exactly for `j < m`, other slots and the player
fields are untouched. -/
theorem addGamesUpTo_spec (scores : List (Int × Int)) (m : Nat)
    (p : TeamApiData × TeamApiData) :
    m ≤ scores.length → m ≤ 5 →
    (∀ j, gameAt (addGamesUpTo scores m p).1 j =
      if j < m then (scores.get? j).map Prod.fst else gameAt p.1 j) ∧
    (∀ j, gameAt (addGamesUpTo scores m p).2 j =
      if j < m then (scores.get? j).map Prod.snd else gameAt p.2 j) ∧
    (addGamesUpTo scores m p).1.player1 = p.1.player1 ∧
    (addGamesUpTo scores m p).1.player2 = p.1.player2 ∧
    (addGamesUpTo scores m p).2.player1 = p.2.player1 ∧
    (addGamesUpTo scores m p).2.player2 = p.2.player2 := by
  induction m with
  | zero =>
      intro _ _
      simp [addGamesUpTo]
  | succ n ih =>
      intro hm h5
      obtain ⟨ih1, ih2, ih3, ih4, ih5, ih6⟩ := ih (by omega) (by omega)
      have hn5 : n < 5 := by omega
      obtain ⟨sc, hsc⟩ : ∃ sc, scores.get? n = some sc := by
        cases hsc : scores.get? n with
        | none =>
            exfalso
            have := List.get?_eq_none.mp hsc
            omega
        | some sc => exact ⟨sc, rfl⟩
      rw [addGamesUpTo_succ]
      unfold gameStep
      rw [hsc]
      dsimp only
      refine ⟨?_, ?_, ?_, ?_, ?_, ?_⟩
      · intro j
        by_cases hj : j = n
        · subst hj
          rw [gameAt_setGame_self _ _ _ hn5, if_pos (by omega), hsc]
          rfl
        · rw [gameAt_setGame_ne _ _ _ _ (fun he => hj he.symm), ih1 j]
          by_cases hjn : j < n
          · rw [if_pos hjn, if_pos (by omega)]
          · rw [if_neg hjn, if_neg (by omega)]
      · intro j
        by_cases hj : j = n
        · subst hj
          rw [gameAt_setGame_self _ _ _ hn5, if_pos (by omega), hsc]
          rfl
        · rw [gameAt_setGame_ne _ _ _ _ (fun he => hj he.symm), ih2 j]
          by_cases hjn : j < n
          · rw [if_pos hjn, if_pos (by omega)]
          · rw [if_neg hjn, if_neg (by omega)]
      · rw [setGame_player1, ih3]
      · rw [setGame_player2, ih4]
      · rw [setGame_player1, ih5]
      · rw [setGame_player2, ih6]

/-- Characterization of the full game-score write: the first
`min(scores.length, 5)` slots of each team hold the score components, the
remaining slots and the player fields come from the initial teams. -/
theorem addGames_spec (scores : List (Int × Int)) (tA tB : TeamApiData) :
    (addGames scores tA tB).1.player1 = tA.player1 ∧
    (addGames scores tA tB).1.player2 = tA.player2 ∧
    (addGames scores tA tB).2.player1 = tB.player1 ∧
    (addGames scores tA tB).2.player2 = tB.player2 ∧
    (∀ j, j < min scores.length 5 →
      gameAt (addGames scores tA tB).1 j = (scores.get? j).map Prod.fst ∧
      gameAt (addGames scores tA tB).2 j = (scores.get? j).map Prod.snd) ∧
    (∀ j, min scores.length 5 ≤ j →
      gameAt (addGames scores tA tB).1 j = gameAt tA j ∧
      gameAt (addGames scores tA tB).2 j = gameAt tB j) := by
  unfold addGames
  obtain ⟨hg1, hg2, hp1, hp2, hp3, hp4⟩ :=
    addGamesUpTo_spec scores (min scores.length 5) (tA, tB)
      (min_le_left _ _) (min_le_right _ _)
  refine ⟨hp1, hp2, hp3, hp4, ?_, ?_⟩
  · intro j hj
    constructor
    · rw [hg1 j, if_pos hj]
    · rw [hg2 j, if_pos hj]
  · intro j hj
    constructor
    · rw [hg1 j, if_neg (by omega)]
    · rw [hg2 j, if_neg (by omega)]

/-- A freshly built team has no game slots filled. -/
theorem gameAt_mkTeam (x : String) (j : Nat) :
    gameAt { player1 := x } j = none := by
  rcases j with _ | _ | _ | _ | _ | j <;> rfl

/-- Adding a second player does not touch the game slots. -/
theorem gameAt_withPlayer2 (t : TeamApiData) (slot : Option String) (j : Nat) :
    gameAt (withPlayer2 t slot) j = gameAt t j := by
  cases slot with
  | none => rfl
  | some p =>
      unfold withPlayer2
      dsimp only
      by_cases hp : p = ""
      · rw [if_pos hp]
      · rw [if_neg hp]
        rcases j with _ | _ | _ | _ | _ | j <;> rfl

/-- Adding a second player does not touch the first. -/
theorem withPlayer2_player1 (t : TeamApiData) (slot : Option String) :
    (withPlayer2 t slot).player1 = t.player1 := by
  cases slot with
  | none => rfl
  | some p =>
      unfold withPlayer2
      dsimp only
      by_cases hp : p = "" <;> simp [hp]

/-- A truthy second-player slot is recorded. -/
theorem withPlayer2_player2_some (t : TeamApiData) (p : String) (hp : p ≠ "") :
    (withPlayer2 t (some p)).player2 = some p := by
  unfold withPlayer2
  dsimp only
  rw [if_neg hp]

/-- C3: for a match whose teams each have a nonempty first player id,
serialization succeeds and places team1 slot 0 into teamA player1 (likewise
team2 into teamB), a present nonempty team1 slot 1 into teamA player2, and
the components of score pair n into game slot n of each team for
n below min(scores.length, 5); slots from min(scores.length, 5) on are
absent, so a match with more than five score pairs is not rejected and the
pairs beyond the fifth are silently omitted. -/
theorem match_toJSON_placement (m : Match) (a b : String)
    (h1 : m.team1.head? = some a) (ha : a ≠ "")
    (h2 : m.team2.head? = some b) (hb : b ≠ "") :
    ∃ j, m.toJSON = .ok j ∧
      j.teamA.player1 = a ∧ j.teamB.player1 = b ∧
      (∀ p, m.team1.get? 1 = some p → p ≠ "" → j.teamA.player2 = some p) ∧
      (m.team1.get? 1 = none → j.teamA.player2 = none) ∧
      (∀ p, m.team2.get? 1 = some p → p ≠ "" → j.teamB.player2 = some p) ∧
      (m.team2.get? 1 = none → j.teamB.player2 = none) ∧
      (∀ n, n < min m.scores.length 5 →
        gameAt j.teamA n = (m.scores.get? n).map Prod.fst ∧
        gameAt j.teamB n = (m.scores.get? n).map Prod.snd) ∧
      (∀ n, min m.scores.length 5 ≤ n →
        gameAt j.teamA n = none ∧ gameAt j.teamB n = none) := by
  have hcond : ¬ (a = "" ∨ b = "") := by
    rintro (h | h)
    exacts [ha h, hb h]
  have htj : m.toJSON = .ok
      { identifier := m.identifier, bracket := m.bracket, event := m.event,
        format := m.format, matchDate := m.date, matchSource := m.source,
        matchType := m.matchType, location := m.location,
        teamA := (addGames m.scores (withPlayer2 { player1 := a } (m.team1.get? 1))
                    (withPlayer2 { player1 := b } (m.team2.get? 1))).1,
        teamB := (addGames m.scores (withPlayer2 { player1 := a } (m.team1.get? 1))
                    (withPlayer2 { player1 := b } (m.team2.get? 1))).2 } := by
    unfold Match.toJSON
    rw [h1, h2]
    dsimp only
    rw [if_neg hcond]
  obtain ⟨sp1, sp2, sp3, sp4, sg1, sg2⟩ :=
    addGames_spec m.scores (withPlayer2 { player1 := a } (m.team1.get? 1))
      (withPlayer2 { player1 := b } (m.team2.get? 1))
  refine ⟨_, htj, ?_, ?_, ?_, ?_, ?_, ?_, ?_, ?_⟩
  · dsimp only
    rw [sp1, withPlayer2_player1]
  · dsimp only
    rw [sp3, withPlayer2_player1]
  · intro p hp hpne
    dsimp only
    rw [sp2, hp, withPlayer2_player2_some _ _ hpne]
  · intro hp
    dsimp only
    rw [sp2, hp]
    rfl
  · intro p hp hpne
    dsimp only
    rw [sp4, hp, withPlayer2_player2_some _ _ hpne]
  · intro hp
    dsimp only
    rw [sp4, hp]
    rfl
  · intro n hn
    exact sg1 n hn
  · intro n hn
    obtain ⟨hA, hB⟩ := sg2 n hn
    constructor
    · dsimp only
      rw [hA, gameAt_withPlayer2, gameAt_mkTeam]
    · dsimp only
      rw [hB, gameAt_withPlayer2, gameAt_mkTeam]

/-- Concrete doubles match carrying six score pairs. -/
def matchSixGames : Match :=
  { event := "Weekly League"
    bracket := "4.0 Doubles"
    date := "2026-01-21T12:00:00.000Z"
    team1 := ["p1", "p2"]
    team2 := ["p3", "p4"]
    scores := [(11, 9), (9, 11), (11, 7), (11, 5), (11, 3), (11, 1)]
    identifier := "SDK-test" }

/-- C3 witness: the placement theorem at a concrete six-game match. -/
theorem match_toJSON_placement_witness :
    matchSixGames.team1.head? = some "p1" ∧
    matchSixGames.team2.head? = some "p3" ∧
    ∃ j, matchSixGames.toJSON = .ok j ∧
      j.teamA.player1 = "p1" ∧ j.teamB.player1 = "p3" ∧
      (∀ p, matchSixGames.team1.get? 1 = some p → p ≠ "" → j.teamA.player2 = some p) ∧
      (matchSixGames.team1.get? 1 = none → j.teamA.player2 = none) ∧
      (∀ p, matchSixGames.team2.get? 1 = some p → p ≠ "" → j.teamB.player2 = some p) ∧
      (matchSixGames.team2.get? 1 = none → j.teamB.player2 = none) ∧
      (∀ n, n < min matchSixGames.scores.length 5 →
        gameAt j.teamA n = (matchSixGames.scores.get? n).map Prod.fst ∧
        gameAt j.teamB n = (matchSixGames.scores.get? n).map Prod.snd) ∧
      (∀ n, min matchSixGames.scores.length 5 ≤ n →
        gameAt j.teamA n = none ∧ gameAt j.teamB n = none) :=
  ⟨rfl, rfl,
   match_toJSON_placement matchSixGames "p1" "p3" rfl (by decide) rfl (by decide)⟩

/-- The element passed to `Set.add` is a member of the result. -/
theorem mem_setAdd_self (l : List String) (s : String) : s ∈ setAdd l s := by
  unfold setAdd
  by_cases h : s ∈ l
  · rw [if_pos h]
    exact h
  · rw [if_neg h]
    exact List.mem_append_right l (List.mem_singleton.mpr rfl)

/-- C7 counterexample: the scope "toString" is not in the scope registry,
yet validation succeeds and the request is issued with it, because the JS
`in` operator also accepts property names the SCOPES object literal
inherits from `Object.prototype` — refuting the claim that every scope
outside the registry triggers an invalid_scope OAuthError. -/
theorem startOAuth_prototype_scope_counterexample :
    "toString" ∈ scopeListOf ["toString"] ∧
    "toString" ∉ SCOPES ∧
    startOAuthValidate ["toString"] = .ok ["toString", "profile:read"] :=
  ⟨by decide, by decide, rfl⟩

/-- C7 amended: the scope list startOAuth uses always contains profile:read
even when the caller omitted it; when any scope of the augmented list fails
the JS test `scope in SCOPES` — it is neither a registry key nor an
inherited `Object.prototype` property name — validation fails with an
OAuthError coded invalid_scope before the request is issued; a successful
validation proceeds with exactly the augmented list, every member of which
passes that test (so a scope such as "toString" slips through). -/
theorem startOAuth_scope_validation_amended (scopes : List String) :
    "profile:read" ∈ scopeListOf scopes ∧
    (∀ s ∈ scopeListOf scopes, jsInScopes s = false →
      ∃ msg, startOAuthValidate scopes =
        .error (.vairified (.oauth msg (some "invalid_scope")))) ∧
    (∀ l, startOAuthValidate scopes = .ok l →
      l = scopeListOf scopes ∧ "profile:read" ∈ l ∧
      ∀ s ∈ l, jsInScopes s = true) := by
  refine ⟨mem_setAdd_self _ _, ?_, ?_⟩
  · intro s hs hns
    cases hf : (scopeListOf scopes).find? (fun s => !(jsInScopes s)) with
    | none =>
        exfalso
        exact List.find?_eq_none.mp hf s hs (by simp [hns])
    | some x =>
        refine ⟨"Invalid scope: " ++ x, ?_⟩
        simp only [startOAuthValidate, hf]
  · intro l hl
    cases hf : (scopeListOf scopes).find? (fun s => !(jsInScopes s)) with
    | none =>
        simp only [startOAuthValidate, hf] at hl
        injection hl with hl
        subst hl
        refine ⟨rfl, mem_setAdd_self _ _, ?_⟩
        intro s hs
        have := List.find?_eq_none.mp hf s hs
        simpa using this
    | some x =>
        exact Except.noConfusion (by simpa only [startOAuthValidate, hf] using hl)

/-- C7 witness: the amended theorem applied to a caller that omits
profile:read, and to a caller requesting a scope that fails the `in` test. -/
theorem startOAuth_scope_validation_witness :
    "profile:read" ∈ scopeListOf ["rating:read"] ∧
    startOAuthValidate ["rating:read"] = .ok ["rating:read", "profile:read"] ∧
    "bogus" ∈ scopeListOf ["rating:read", "bogus"] ∧
    jsInScopes "bogus" = false ∧
    (∃ msg, startOAuthValidate ["rating:read", "bogus"] =
      .error (.vairified (.oauth msg (some "invalid_scope")))) :=
  ⟨(startOAuth_scope_validation_amended ["rating:read"]).1, rfl, by decide, by decide,
   (startOAuth_scope_validation_amended ["rating:read", "bogus"]).2.1 "bogus"
     (by decide) (by decide)⟩

/-- C8: a bare array answer from the search endpoint is normalized to the
envelope shape with the returned players, total equal to the array length,
and the requested page (default 1) and limit (default 20); the SearchResults
is built from that normalized envelope with the original filters. -/
theorem search_bare_array_normalization (ps : List PlayerSearchData)
    (filters : SearchFilters) (c : Option Unit) :
    searchNormalize filters (.arr ps) =
      { players := ps, total := ps.length, page := filters.page.getD 1,
        limit := filters.limit.getD 20 } ∧
    searchBuild filters (.arr ps) c =
      SearchResults.ofData (searchNormalize filters (.arr ps)) c filters ∧
    (searchBuild filters (.arr ps) c).players =
      ps.map (fun p => Player.ofData (.search p) c) ∧
    (searchBuild filters (.arr ps) c).total = ps.length ∧
    (searchBuild filters (.arr ps) c).page = filters.page.getD 1 ∧
    (searchBuild filters (.arr ps) c).limit = filters.limit.getD 20 ∧
    (searchBuild filters (.arr ps) c).filters = filters :=
  ⟨rfl, rfl, rfl, rfl, rfl, rfl, rfl⟩

/-- C9: a match without a truthy first player on either team fails to
serialize with a plain local error, and the lazy follow-up operations
(refresh, next page, member lookup from an update) on an entity without a
client back-reference fail with a plain local error; a plain error is not an
instance of the HTTP error taxonomy, and the Except.error result means no
request value is ever produced. -/
theorem local_precondition_errors :
    (∀ (m : Match),
      (m.team1.head? = none ∨ m.team1.head? = some "" ∨
       m.team2.head? = none ∨ m.team2.head? = some "") →
      m.toJSON = .error (.plain "Match must have at least one player per team")) ∧
    (∀ (mem : Member), mem.toPlayer.client = none →
      mem.refreshRequest = .error (.plain "Member not connected to client")) ∧
    (∀ (r : SearchResults), r.client = none →
      r.nextPageRequest = .error (.plain "Results not connected to client")) ∧
    (∀ (u : RatingUpdate), u.client = none →
      u.getMemberRequest = .error (.plain "Update not connected to client")) ∧
    (∀ msg, ThrownError.isHttpTaxonomy (.plain msg) = false) ∧
    (∀ msg e, ThrownError.plain msg ≠ ThrownError.vairified e) := by
  refine ⟨?_, ?_, ?_, ?_, ?_, ?_⟩
  · intro m h
    unfold Match.toJSON
    rcases h with h | h | h | h
    · rw [h]
    · rw [h]
      cases hb : m.team2.head? with
      | none => rfl
      | some b =>
          dsimp only
          rw [if_pos (Or.inl rfl)]
    · rw [h]
      cases ha : m.team1.head? with
      | none => rfl
      | some a => rfl
    · rw [h]
      cases ha : m.team1.head? with
      | none => rfl
      | some a =>
          dsimp only
          rw [if_pos (Or.inr rfl)]
  · intro mem h
    unfold Member.refreshRequest
    rw [h]
  · intro r h
    unfold SearchResults.nextPageRequest
    rw [h]
  · intro u h
    unfold RatingUpdate.getMemberRequest
    rw [h]
  · intro msg
    rfl
  · intro msg e h
    cases h

/-- Concrete match with an empty first team. -/
def matchNoPlayers : Match :=
  { event := "E"
    bracket := "B"
    date := "D"
    team1 := []
    team2 := ["p2"]
    scores := []
    identifier := "X" }

/-- Concrete member never associated with a client. -/
def orphanMember : Member := Member.ofData bareMemberData none

/-- Concrete search results never associated with a client. -/
def orphanResults : SearchResults := { players := [], total := 1, page := 1, limit := 20 }

/-- Concrete rating update never associated with a client. -/
def orphanUpdate : RatingUpdate :=
  { id := "vair_mem_9"
    previousRating := 4
    newRating := 5
    ratingSplits := RatingSplits.ofData none }

/-- C9 witness: the local-error theorem at concrete orphaned entities. -/
theorem local_precondition_errors_witness :
    matchNoPlayers.toJSON =
      .error (.plain "Match must have at least one player per team") ∧
    orphanMember.refreshRequest = .error (.plain "Member not connected to client") ∧
    orphanResults.nextPageRequest = .error (.plain "Results not connected to client") ∧
    orphanUpdate.getMemberRequest = .error (.plain "Update not connected to client") :=
  ⟨local_precondition_errors.1 matchNoPlayers (Or.inl rfl),
   local_precondition_errors.2.1 orphanMember rfl,
   local_precondition_errors.2.2.1 orphanResults rfl,
   local_precondition_errors.2.2.2.1 orphanUpdate rfl⟩

/-- C10: with a client present, nextPage throws a plain local error and
issues no request when hasMore is false (total within page times limit), and
otherwise re-issues the search with the stored filters and the page number
incremented by one. -/
theorem nextPage_requires_more (r : SearchResults) (hc : r.client = some ()) :
    (r.hasMore = false ↔ r.total ≤ r.page * r.limit) ∧
    (r.hasMore = false →
      r.nextPageRequest = .error (.plain "No more pages")) ∧
    (r.hasMore = true →
      r.nextPageRequest = .ok { r.filters with page := some (r.page + 1) }) := by
  refine ⟨?_, ?_, ?_⟩
  · simp [SearchResults.hasMore]
  · intro h
    unfold SearchResults.nextPageRequest
    rw [hc]
    dsimp only
    rw [h]
    rfl
  · intro h
    unfold SearchResults.nextPageRequest
    rw [hc]
    dsimp only
    rw [h]
    rfl

/-- Concrete mid-pagination results holding a client and filters. -/
def pagedResults : SearchResults :=
  { players := []
    total := 45
    page := 2
    limit := 20
    client := some ()
    filters := { city := some "Austin" } }

/-- Concrete exhausted results holding a client. -/
def lastPageResults : SearchResults :=
  { players := []
    total := 45
    page := 3
    limit := 20
    client := some () }

/-- C10 witness: the nextPage theorem at concrete paged and exhausted
results. -/
theorem nextPage_requires_more_witness :
    pagedResults.client = some () ∧
    pagedResults.hasMore = true ∧
    pagedResults.nextPageRequest =
      .ok { pagedResults.filters with page := some (pagedResults.page + 1) } ∧
    lastPageResults.hasMore = false ∧
    lastPageResults.nextPageRequest = .error (.plain "No more pages") :=
  ⟨rfl, rfl, (nextPage_requires_more pagedResults rfl).2.2 rfl,
   rfl, (nextPage_requires_more lastPageResults rfl).2.1 rfl⟩

end Vairified
